import Mathlib

/-!
Verification development for the CodeReps spaced-repetition tracker.

The TypeScript sources are shallowly embedded: JS `Date` values are modelled
as integer milliseconds since the epoch (`Int`), the `date-fns` helpers
`startOfDay`, `addDays`, `isBefore`, `isAfter`, `isSameDay` are modelled over
that representation (a single fixed UTC-like calendar: one day = 86400000 ms,
day boundaries at multiples of `msPerDay`), the Dexie/IndexedDB tables are
modelled as Lean lists with upsert-by-primary-key semantics, and every place
the source reads the wall clock (`new Date()`) becomes an explicit `now`
parameter.  Methods of the service/repository classes become functions whose
first argument is the relevant store.
-/

/-- Milliseconds per calendar day. -/
def msPerDay : Int := 86400000

/-- Model of date-fns `startOfDay`: truncate a timestamp to the start of its
calendar day (floor to a multiple of `msPerDay`; Lean's `Int./` is floor
division for a positive divisor, matching calendar-day truncation also for
instants before the epoch). -/
def startOfDay (t : Int) : Int := msPerDay * (t / msPerDay)

/-- Model of date-fns `addDays`. -/
def addDays (t : Int) (n : Int) : Int := t + n * msPerDay

/-- Model of date-fns `isBefore` (strict comparison of instants). -/
def isBefore (a b : Int) : Bool := decide (a < b)

/-- Model of date-fns `isAfter` (strict comparison of instants). -/
def isAfter (a b : Int) : Bool := decide (b < a)

/-- Model of date-fns `isSameDay`: the two instants fall on the same calendar
day. -/
def isSameDay (a b : Int) : Bool := decide (a / msPerDay = b / msPerDay)

/-- `src/domain/models/Problem.ts`: the `Difficulty` enumeration. -/
inductive Difficulty where
  | EASY
  | MEDIUM
  | HARD
  | DIDNT_GET
deriving DecidableEq, Repr

/-- `src/domain/models/Problem.ts`: a `ReviewRecord` (date, difficulty,
optional notes). -/
structure ReviewRecord where
  date : Int
  difficulty : Difficulty
  notes : Option String := none
deriving DecidableEq, Repr

/-- `src/domain/models/Problem.ts`: a `Problem`. -/
structure Problem where
  id : String
  name : String
  number : Option Int := none
  reviewHistory : List ReviewRecord
  nextReviewDate : Int
  createdAt : Int
  archived : Bool
deriving DecidableEq, Repr

/-- `src/domain/models/TodoItem.ts`: a `TodoItem`. -/
structure TodoItem where
  id : String
  name : String
  number : Option Int := none
  note : Option String := none
  completed : Bool
  createdAt : Int
  completedAt : Option Int := none
deriving DecidableEq, Repr

namespace SRSScheduler

/-- `SRSScheduler.MAX_INTERVAL_DAYS`. -/
def MAX_INTERVAL_DAYS : Int := 90

/-- `SRSScheduler.AUTO_ARCHIVE_THRESHOLD`. -/
def AUTO_ARCHIVE_THRESHOLD : Nat := 3

/-- `SRSScheduler.getBaseInterval`: base interval in days per difficulty. -/
def getBaseInterval (difficulty : Difficulty) : Int :=
  match difficulty with
  | .EASY => MAX_INTERVAL_DAYS
  | .MEDIUM => 7
  | .HARD => 3
  | .DIDNT_GET => 1

/-- `SRSScheduler.getMultiplier`: multiplier from the review count, applied
only for MEDIUM/HARD. -/
def getMultiplier (reviewCount : Nat) (difficulty : Difficulty) : Int :=
  if difficulty = .EASY ∨ difficulty = .DIDNT_GET then 1
  else if reviewCount = 0 then 1
  else if reviewCount = 1 then 1
  else if reviewCount = 2 then 2
  else if reviewCount = 3 then 2
  else 3

/-- The local `intervalDays` computation inside
`SRSScheduler.scheduleNextReview`:
`Math.min(baseInterval * multiplier, MAX_INTERVAL_DAYS)`. -/
def intervalDays (reviewCount : Nat) (difficulty : Difficulty) : Int :=
  min (getBaseInterval difficulty * getMultiplier reviewCount difficulty)
    MAX_INTERVAL_DAYS

/-- `SRSScheduler.scheduleNextReview(problem, difficulty)`.  The source reads
`problem.reviewHistory.length` as the review count and always schedules from
`new Date()` (modelled by the explicit `now`); it has no as-of-date
parameter. -/
def scheduleNextReview (problem : Problem) (difficulty : Difficulty)
    (now : Int) : Int :=
  startOfDay (addDays now (intervalDays problem.reviewHistory.length difficulty))

/-- `SRSScheduler.countSuccessfulReviews`: reviews whose difficulty is EASY or
MEDIUM. -/
def countSuccessfulReviews (reviewHistory : List ReviewRecord) : Nat :=
  (reviewHistory.filter fun r =>
    r.difficulty == Difficulty.EASY || r.difficulty == Difficulty.MEDIUM).length

/-- `SRSScheduler.shouldArchive`. -/
def shouldArchive (problem : Problem) : Bool :=
  decide (AUTO_ARCHIVE_THRESHOLD ≤ countSuccessfulReviews problem.reviewHistory)

end SRSScheduler

/-- Dexie `Table.put` (upsert by primary key), for a list-modelled table:
replace every row sharing the new row's key, or append the row if its key is
absent.  In IndexedDB the primary key is unique, so at most one row is
replaced. -/
def putById {α : Type} (key : α → String) (store : List α) (x : α) : List α :=
  if store.any (fun y => key y == key x) then
    store.map (fun y => if key y == key x then x else y)
  else
    store ++ [x]

/-- Dexie `Table.bulkPut`: upsert each row in order. -/
def bulkPut {α : Type} (key : α → String) (store : List α) (xs : List α) :
    List α :=
  xs.foldl (putById key) store

namespace ProblemRepository

/-- `ProblemRepository.findById`. -/
def findById (store : List Problem) (id : String) : Option Problem :=
  store.find? (fun p => p.id == id)

/-- `ProblemRepository.save` (`db.problems.put`). -/
def save (store : List Problem) (problem : Problem) : List Problem :=
  putById Problem.id store problem

/-- `ProblemRepository.getAll` (default excludes archived problems). -/
def getAll (store : List Problem) (includeArchived : Bool := false) :
    List Problem :=
  if includeArchived then store else store.filter (fun p => !p.archived)

/-- `ProblemRepository.getArchived`. -/
def getArchived (store : List Problem) : List Problem :=
  store.filter (fun p => p.archived == true)

/-- `ProblemRepository.importMany` (`db.problems.bulkPut`). -/
def importMany (store : List Problem) (problems : List Problem) :
    List Problem :=
  bulkPut Problem.id store problems

end ProblemRepository

/-- `src/domain/ReviewQueue.ts`: a derived `ReviewItem`. -/
structure ReviewItem where
  problem : Problem
  daysOverdue : Int
  isOverdue : Bool
  isToday : Bool
deriving DecidableEq, Repr

namespace ReviewQueue

/-- `ReviewQueue.createReviewItem(problem, today)` where `today` is already
start-of-day truncated by the callers. -/
def createReviewItem (problem : Problem) (today : Int) : ReviewItem :=
  let dueDate := startOfDay problem.nextReviewDate
  let overdue := isBefore dueDate today
  { problem
    daysOverdue := if overdue then (today - dueDate) / msPerDay else 0
    isOverdue := overdue
    isToday := isSameDay dueDate today }

/-- Comparator used by both queue sorts: ascending by start-of-day of
`nextReviewDate` (`dateA.getTime() - dateB.getTime()`; JS `Array.sort` is
stable, modelled by stable `List.mergeSort`). -/
def byDueDate (a b : ReviewItem) : Bool :=
  decide (startOfDay a.problem.nextReviewDate ≤ startOfDay b.problem.nextReviewDate)

/-- `ReviewQueue.getTodaysReviews`: non-archived problems whose due day is on
or before today, as `ReviewItem`s, sorted most overdue first. -/
def getTodaysReviews (store : List Problem) (now : Int) : List ReviewItem :=
  let problems := ProblemRepository.getAll store
  let today := startOfDay now
  let dueProblems :=
    (problems.filter fun p =>
      let dueDate := startOfDay p.nextReviewDate
      isBefore dueDate today || isSameDay dueDate today).map
      (fun p => createReviewItem p today)
  dueProblems.mergeSort byDueDate

/-- `ReviewQueue.getUpcomingReviews`: non-archived problems whose due day is
strictly after today, sorted soonest first. -/
def getUpcomingReviews (store : List Problem) (now : Int) :
    List ReviewItem :=
  let problems := ProblemRepository.getAll store
  let today := startOfDay now
  let upcomingProblems :=
    (problems.filter fun p =>
      let dueDate := startOfDay p.nextReviewDate
      isAfter dueDate today).map (fun p => createReviewItem p today)
  upcomingProblems.mergeSort byDueDate

/-- `ReviewQueue.getAllReviews`: today's reviews then upcoming ones. -/
def getAllReviews (store : List Problem) (now : Int) : List ReviewItem :=
  getTodaysReviews store now ++ getUpcomingReviews store now

end ReviewQueue

/-- The `updates` argument of `ReviewService.updateReviewRecord`. -/
structure ReviewUpdates where
  date : Option Int := none
  difficulty : Option Difficulty := none
  note : Option String := none
deriving DecidableEq, Repr

namespace ReviewService

/-- `ReviewService.recordReview`: append the new record (notes only when
non-empty), recompute `nextReviewDate` from the post-append problem, then
auto-archive when the threshold is met, and save.  Returns the updated store
and problem. -/
def recordReview (store : List Problem) (problemId : String)
    (difficulty : Difficulty) (reviewDate : Option Int)
    (notes : Option String) (now : Int) :
    Except String (List Problem × Problem) :=
  match ProblemRepository.findById store problemId with
  | none => .error "Problem not found"
  | some problem =>
    let review : ReviewRecord :=
      { date := reviewDate.getD now
        difficulty
        notes := match notes with
          | some s => if s = "" then none else some s
          | none => none }
    let appended := { problem with
      reviewHistory := problem.reviewHistory ++ [review] }
    let scheduled := { appended with
      nextReviewDate := SRSScheduler.scheduleNextReview appended difficulty now }
    let final :=
      if SRSScheduler.shouldArchive scheduled then
        { scheduled with archived := true }
      else scheduled
    .ok (ProblemRepository.save store final, final)

/-- `ReviewService.updateReviewRecord`: bounds-check the index, patch the
provided fields (a blank note clears the field), and when the edited record
is the last one by index and date or difficulty was supplied, recompute
`nextReviewDate`.  The source passes `review.date` as a third argument to
`scheduleNextReview`, but the scheduler's signature has no such parameter, so
the recomputation schedules from `now`. -/
def updateReviewRecord (store : List Problem) (problemId : String)
    (reviewIndex : Int) (updates : ReviewUpdates) (now : Int) :
    Except String (List Problem × Problem) :=
  match ProblemRepository.findById store problemId with
  | none => .error "Problem not found"
  | some problem =>
    if reviewIndex < 0 ∨ (problem.reviewHistory.length : Int) ≤ reviewIndex then
      .error "Review index out of bounds"
    else
      let i := reviewIndex.toNat
      let review0 := problem.reviewHistory.getD i
        { date := 0, difficulty := .EASY }
      let review1 := match updates.date with
        | some d => { review0 with date := d }
        | none => review0
      let review2 := match updates.difficulty with
        | some d => { review1 with difficulty := d }
        | none => review1
      let review3 := match updates.note with
        | some n =>
          if n.trim = "" then { review2 with notes := none }
          else { review2 with notes := some n.trim }
        | none => review2
      let isLastReview := i = problem.reviewHistory.length - 1
      let patched := { problem with
        reviewHistory := problem.reviewHistory.set i review3 }
      let final :=
        if isLastReview ∧ (updates.date.isSome ∨ updates.difficulty.isSome) then
          { patched with
            nextReviewDate :=
              SRSScheduler.scheduleNextReview patched review3.difficulty now }
        else patched
      .ok (ProblemRepository.save store final, final)

end ReviewService

/-- Model of JS `String.prototype.toLowerCase` restricted to the per-character
lowering used by the name comparisons (adequate for the ASCII problem names
the application stores). -/
def lowerChars (s : String) : List Char := s.data.map Char.toLower

namespace TodoRepository

/-- `TodoRepository.findPendingByName`: first pending item whose lower-cased
name equals the lower-cased query (`db.todoItems.filter(...).first()`; the
list order models the table's iteration order). -/
def findPendingByName (store : List TodoItem) (name : String) :
    Option TodoItem :=
  store.find? (fun t => !t.completed && lowerChars t.name == lowerChars name)

/-- `TodoRepository.markComplete`: set `completed` and `completedAt` together
on the row with the given id (`db.todoItems.update`). -/
def markComplete (store : List TodoItem) (id : String) (now : Int) :
    List TodoItem :=
  store.map fun t =>
    if t.id == id then { t with completed := true, completedAt := some now }
    else t

/-- `TodoRepository.markIncomplete`: clear `completed` and `completedAt`
together. -/
def markIncomplete (store : List TodoItem) (id : String) : List TodoItem :=
  store.map fun t =>
    if t.id == id then { t with completed := false, completedAt := none }
    else t

/-- `TodoRepository.getAll`. -/
def getAll (store : List TodoItem) : List TodoItem := store

/-- `TodoRepository.importMany` (`db.todoItems.bulkPut`). -/
def importMany (store : List TodoItem) (todoItems : List TodoItem) :
    List TodoItem :=
  bulkPut TodoItem.id store todoItems

end TodoRepository

namespace TodoService

/-- `TodoService.markCompleteByName`: complete the first pending
case-insensitive exact name match, if any; report whether one was found. -/
def markCompleteByName (store : List TodoItem) (name : String) (now : Int) :
    List TodoItem × Bool :=
  match TodoRepository.findPendingByName store name with
  | some todo => (TodoRepository.markComplete store todo.id now, true)
  | none => (store, false)

end TodoService

/-- Model of a date field as it sits inside the exported JSON document: the
ISO-8601 string printed by `Date.prototype.toISOString`.  That string carries
the full millisecond-precision instant, so it is modelled by the instant it
denotes; `toISOString` and `new Date(isoString)` are exact mutual inverses at
this precision. -/
structure IsoDate where
  iso : Int
deriving DecidableEq, Repr

/-- `Date.prototype.toISOString` (applied by `JSON.stringify`). -/
def dateToIso (t : Int) : IsoDate := ⟨t⟩

/-- `new Date(isoString)` as used to rehydrate imported date fields. -/
def dateOfIso (s : IsoDate) : Int := s.iso

/-- A `ReviewRecord` as it appears in the serialized export document. -/
structure SReviewRecord where
  date : IsoDate
  difficulty : Difficulty
  notes : Option String := none
deriving DecidableEq, Repr

/-- A `Problem` as it appears in the serialized export document. -/
structure SProblem where
  id : String
  name : String
  number : Option Int := none
  reviewHistory : List SReviewRecord
  nextReviewDate : IsoDate
  createdAt : IsoDate
  archived : Bool
deriving DecidableEq, Repr

/-- A `TodoItem` as it appears in the serialized export document. -/
structure STodoItem where
  id : String
  name : String
  number : Option Int := none
  note : Option String := none
  completed : Bool
  createdAt : IsoDate
  completedAt : Option IsoDate := none
deriving DecidableEq, Repr

/-- What `JSON.stringify` does to a `ReviewRecord`. -/
def serializeReview (r : ReviewRecord) : SReviewRecord :=
  { date := dateToIso r.date, difficulty := r.difficulty, notes := r.notes }

/-- What `JSON.stringify` does to a `Problem`. -/
def serializeProblem (p : Problem) : SProblem :=
  { id := p.id
    name := p.name
    number := p.number
    reviewHistory := p.reviewHistory.map serializeReview
    nextReviewDate := dateToIso p.nextReviewDate
    createdAt := dateToIso p.createdAt
    archived := p.archived }

/-- What `JSON.stringify` does to a `TodoItem`. -/
def serializeTodoItem (t : TodoItem) : STodoItem :=
  { id := t.id
    name := t.name
    number := t.number
    note := t.note
    completed := t.completed
    createdAt := dateToIso t.createdAt
    completedAt := t.completedAt.map dateToIso }

/-- The parsed form of the exported JSON document
`{ version, exportedAt, data: { problems, todoItems? } }`.  A missing or
JS-falsy `version` is modelled by `none`/`some 0`; a missing `data.problems`
or `data.todoItems` by `none`. -/
structure ExportPayload where
  version : Option Int
  exportedAt : IsoDate
  problems : Option (List SProblem)
  todoItems : Option (List STodoItem)
deriving DecidableEq, Repr

namespace ReviewService

/-- `ReviewService.exportData` composed with `JSON.parse`: the document built
from all problems (archived included) and all to-do items, version 2, dates
serialized to ISO strings. -/
def exportData (pstore : List Problem) (tstore : List TodoItem)
    (now : Int) : ExportPayload :=
  { version := some 2
    exportedAt := dateToIso now
    problems := some ((ProblemRepository.getAll pstore true).map serializeProblem)
    todoItems := some ((TodoRepository.getAll tstore).map serializeTodoItem) }

/-- The per-problem rehydration map inside `ReviewService.importData`
(spread plus `new Date` on each date field). -/
def rehydrateProblem (p : SProblem) : Problem :=
  { id := p.id
    name := p.name
    number := p.number
    reviewHistory := p.reviewHistory.map fun r =>
      { date := dateOfIso r.date, difficulty := r.difficulty, notes := r.notes }
    nextReviewDate := dateOfIso p.nextReviewDate
    createdAt := dateOfIso p.createdAt
    archived := p.archived }

/-- The per-item rehydration map inside `TodoService.importData`. -/
def rehydrateTodoItem (t : STodoItem) : TodoItem :=
  { id := t.id
    name := t.name
    number := t.number
    note := t.note
    completed := t.completed
    createdAt := dateOfIso t.createdAt
    completedAt := t.completedAt.map dateOfIso }

/-- `ReviewService.importData` (after `JSON.parse`): validate the payload,
rehydrate and bulk-upsert the problems, then the to-do items when present;
return the updated stores and the number of problems imported. -/
def importData (pstore : List Problem) (tstore : List TodoItem)
    (payload : ExportPayload) :
    Except String (List Problem × List TodoItem × Nat) :=
  if payload.version.getD 0 = 0 ∨ payload.problems.isNone then
    .error "Invalid export file format"
  else
    let sproblems := payload.problems.getD []
    let problems := sproblems.map rehydrateProblem
    let pstore' := ProblemRepository.importMany pstore problems
    let tstore' := match payload.todoItems with
      | some stodos =>
        TodoRepository.importMany tstore (stodos.map rehydrateTodoItem)
      | none => tstore
    .ok (pstore', tstore', problems.length)

end ReviewService

/-! ## Concrete fixtures used by counterexamples and witnesses -/

/-- A problem with exactly one prior MEDIUM review, recorded on day 0. -/
def probTwoSum : Problem :=
  { id := "p1", name := "Two Sum"
    reviewHistory := [{ date := 0, difficulty := .MEDIUM }]
    nextReviewDate := 7 * msPerDay, createdAt := 0, archived := false }

/-- A problem with three EASY/MEDIUM reviews interleaved with failures. -/
def probInterleaved : Problem :=
  { id := "p2", name := "LRU Cache"
    reviewHistory :=
      [{ date := 0, difficulty := .EASY },
       { date := 1 * msPerDay, difficulty := .HARD },
       { date := 2 * msPerDay, difficulty := .MEDIUM },
       { date := 3 * msPerDay, difficulty := .DIDNT_GET },
       { date := 4 * msPerDay, difficulty := .EASY }]
    nextReviewDate := 10 * msPerDay, createdAt := 0, archived := false }

/-- A problem with an empty review history. -/
def probFresh : Problem :=
  { id := "p3", name := "Word Ladder", reviewHistory := []
    nextReviewDate := 2 * msPerDay, createdAt := 0, archived := false }

/-- A problem with three review records, for the edit-by-index claims. -/
def probThree : Problem :=
  { id := "p4", name := "Coin Change"
    reviewHistory :=
      [{ date := 0, difficulty := .MEDIUM },
       { date := 5 * msPerDay, difficulty := .HARD },
       { date := 9 * msPerDay, difficulty := .MEDIUM }]
    nextReviewDate := 16 * msPerDay, createdAt := 0, archived := false }

/-- A problem overdue by three days relative to `fixedNow`. -/
def probOverdue : Problem :=
  { id := "p5", name := "Two Pointers"
    reviewHistory := [{ date := 0, difficulty := .HARD }]
    nextReviewDate := 97 * msPerDay, createdAt := 0, archived := false }

/-- A fixed instant used as "now" by several witnesses: 6 a.m. on day 100. -/
def fixedNow : Int := 100 * msPerDay + 21600000

/-- A pending to-do item named in lower case. -/
def todoTwoSum : TodoItem :=
  { id := "t1", name := "two sum", completed := false, createdAt := 0 }

/-- A completed to-do item whose name also matches the C9 query. -/
def todoDone : TodoItem :=
  { id := "t2", name := "Two Sum", completed := true, createdAt := 0
    completedAt := some msPerDay }

/-! ## Helper lemmas -/

/-- Unfolded form of `scheduleNextReview`: start of the current day plus the
computed interval in days. -/
theorem scheduleNextReview_eq (p : Problem) (d : Difficulty) (now : Int) :
    SRSScheduler.scheduleNextReview p d now =
      startOfDay now +
        SRSScheduler.intervalDays p.reviewHistory.length d * msPerDay := by
  simp only [SRSScheduler.scheduleNextReview, startOfDay, addDays, msPerDay]
  omega

/-- The multiplier is always between 1 and 3. -/
theorem getMultiplier_bounds (n : Nat) (d : Difficulty) :
    1 ≤ SRSScheduler.getMultiplier n d ∧ SRSScheduler.getMultiplier n d ≤ 3 := by
  unfold SRSScheduler.getMultiplier
  repeat' split
  all_goals omega

/-- The base interval is always between 1 and 90. -/
theorem getBaseInterval_bounds (d : Difficulty) :
    1 ≤ SRSScheduler.getBaseInterval d ∧ SRSScheduler.getBaseInterval d ≤ 90 := by
  cases d <;> constructor <;> decide

/-- The scheduled interval is always between 1 and 90 days. -/
theorem intervalDays_bounds (n : Nat) (d : Difficulty) :
    1 ≤ SRSScheduler.intervalDays n d ∧ SRSScheduler.intervalDays n d ≤ 90 := by
  obtain ⟨hm1, hm3⟩ := getMultiplier_bounds n d
  obtain ⟨hb1, hb90⟩ := getBaseInterval_bounds d
  unfold SRSScheduler.intervalDays SRSScheduler.MAX_INTERVAL_DAYS
  constructor
  · exact le_min (by nlinarith) (by norm_num)
  · exact min_le_right _ _

/-- For MEDIUM or HARD and at least four recorded reviews the multiplier
is 3. -/
theorem getMultiplier_of_four_le (n : Nat) (h4 : 4 ≤ n) (d : Difficulty)
    (hd : d = .MEDIUM ∨ d = .HARD) : SRSScheduler.getMultiplier n d = 3 := by
  rcases hd with hd | hd <;> subst hd <;>
    · unfold SRSScheduler.getMultiplier
      rw [if_neg (by decide), if_neg (by omega), if_neg (by omega),
        if_neg (by omega), if_neg (by omega)]

/-- For EASY or DIDNT_GET the multiplier is fixed at 1. -/
theorem getMultiplier_of_easy_or_didntget (n : Nat) (d : Difficulty)
    (hd : d = .EASY ∨ d = .DIDNT_GET) : SRSScheduler.getMultiplier n d = 1 := by
  unfold SRSScheduler.getMultiplier
  rw [if_pos hd]

/-- C4 — For every review count n and difficulty d, the interval computed by
`scheduleNextReview` equals min(base(d) × multiplier, 90) with base EASY=90,
MEDIUM=7, HARD=3, DIDNT_GET=1; for EASY or DIDNT_GET the multiplier is always
1 so the interval equals base(d), and for MEDIUM or HARD with n ≥ 4 the
interval equals min(base(d)×3, 90). -/
theorem C4_interval_formula (n : Nat) (d : Difficulty) :
    SRSScheduler.intervalDays n d =
      min (SRSScheduler.getBaseInterval d * SRSScheduler.getMultiplier n d) 90 ∧
    SRSScheduler.getBaseInterval .EASY = 90 ∧
    SRSScheduler.getBaseInterval .MEDIUM = 7 ∧
    SRSScheduler.getBaseInterval .HARD = 3 ∧
    SRSScheduler.getBaseInterval .DIDNT_GET = 1 ∧
    ((d = .EASY ∨ d = .DIDNT_GET) →
      SRSScheduler.getMultiplier n d = 1 ∧
      SRSScheduler.intervalDays n d = SRSScheduler.getBaseInterval d) ∧
    (4 ≤ n → (d = .MEDIUM ∨ d = .HARD) →
      SRSScheduler.intervalDays n d = min (SRSScheduler.getBaseInterval d * 3) 90) := by
  refine ⟨rfl, rfl, rfl, rfl, rfl, fun hd => ?_, fun h4 hd => ?_⟩
  · refine ⟨getMultiplier_of_easy_or_didntget n d hd, ?_⟩
    unfold SRSScheduler.intervalDays
    rw [getMultiplier_of_easy_or_didntget n d hd]
    rcases hd with hd | hd <;> subst hd <;> decide
  · unfold SRSScheduler.intervalDays SRSScheduler.MAX_INTERVAL_DAYS
    rw [getMultiplier_of_four_le n h4 d hd]

/-- Witness for C4 at n = 5, d = MEDIUM: the four-plus multiplier clause
yields min(7 × 3, 90) = 21. -/
theorem C4_witness :
    SRSScheduler.intervalDays 5 .MEDIUM = min (SRSScheduler.getBaseInterval .MEDIUM * 3) 90 ∧
    SRSScheduler.intervalDays 5 .MEDIUM = 21 := by
  constructor
  · exact (C4_interval_formula 5 .MEDIUM).2.2.2.2.2.2 (by decide) (Or.inl rfl)
  · decide

/-- C10 — For every problem, difficulty, and review count, the computed
interval is between 1 and 90 days, so the returned next review date is
strictly after the start of the current day, and the freshly scheduled
problem fails the due-today test (it never becomes due again on the same
day). -/
theorem C10_never_due_same_day (p : Problem) (d : Difficulty) (now : Int) :
    1 ≤ SRSScheduler.intervalDays p.reviewHistory.length d ∧
    SRSScheduler.intervalDays p.reviewHistory.length d ≤ 90 ∧
    startOfDay now < SRSScheduler.scheduleNextReview p d now ∧
    (isBefore (startOfDay (SRSScheduler.scheduleNextReview p d now)) (startOfDay now) ||
      isSameDay (startOfDay (SRSScheduler.scheduleNextReview p d now)) (startOfDay now)) = false := by
  obtain ⟨h1, h90⟩ := intervalDays_bounds p.reviewHistory.length d
  refine ⟨h1, h90, ?_, ?_⟩
  · rw [scheduleNextReview_eq]
    simp only [startOfDay, msPerDay] at *
    omega
  · rw [scheduleNextReview_eq]
    simp only [isBefore, isSameDay, Bool.or_eq_false_iff,
      decide_eq_false_iff_not, startOfDay, msPerDay] at *
    omega

/-- C3 — `shouldArchive` is true iff the history holds at least three EASY or
MEDIUM records, it is false on an empty history, and it is unchanged by
inserting a HARD or DIDNT_GET record at any position. -/
theorem C3_shouldArchive_iff (p : Problem) (l₁ l₂ : List ReviewRecord)
    (r : ReviewRecord) :
    (SRSScheduler.shouldArchive p = true ↔
      3 ≤ (p.reviewHistory.filter fun q =>
        q.difficulty == Difficulty.EASY || q.difficulty == Difficulty.MEDIUM).length) ∧
    (p.reviewHistory = [] → SRSScheduler.shouldArchive p = false) ∧
    ((r.difficulty = .HARD ∨ r.difficulty = .DIDNT_GET) →
      SRSScheduler.shouldArchive { p with reviewHistory := l₁ ++ r :: l₂ } =
        SRSScheduler.shouldArchive { p with reviewHistory := l₁ ++ l₂ }) := by
  refine ⟨?_, fun hempty => ?_, fun hr => ?_⟩
  · simp [SRSScheduler.shouldArchive, SRSScheduler.countSuccessfulReviews,
      SRSScheduler.AUTO_ARCHIVE_THRESHOLD]
  · simp [SRSScheduler.shouldArchive, SRSScheduler.countSuccessfulReviews,
      SRSScheduler.AUTO_ARCHIVE_THRESHOLD, hempty]
  · have hfalse : (r.difficulty == Difficulty.EASY ||
        r.difficulty == Difficulty.MEDIUM) = false := by
      rcases hr with hr | hr <;> rw [hr] <;> decide
    simp [SRSScheduler.shouldArchive, SRSScheduler.countSuccessfulReviews,
      List.filter_append, hfalse]

/-- Witness for C3: the threshold is met by three successes interleaved with
failures, an empty history does not archive, and inserting a HARD record
between two successes does not change the verdict. -/
theorem C3_witness :
    SRSScheduler.shouldArchive probInterleaved = true ∧
    SRSScheduler.shouldArchive probFresh = false ∧
    SRSScheduler.shouldArchive { probFresh with reviewHistory :=
        [{ date := 0, difficulty := .EASY },
         { date := 1, difficulty := .HARD },
         { date := 2, difficulty := .MEDIUM }] } =
      SRSScheduler.shouldArchive { probFresh with reviewHistory :=
        [{ date := 0, difficulty := .EASY },
         { date := 2, difficulty := .MEDIUM }] } :=
  ⟨(C3_shouldArchive_iff probInterleaved [] [] { date := 0, difficulty := .EASY }).1.mpr (by decide),
   (C3_shouldArchive_iff probFresh [] [] { date := 0, difficulty := .EASY }).2.1 rfl,
   (C3_shouldArchive_iff probFresh [{ date := 0, difficulty := .EASY }] [{ date := 2, difficulty := .MEDIUM }] { date := 1, difficulty := .HARD }).2.2 (Or.inl rfl)⟩

/-- C1 counterexample — recording a MEDIUM review on `probTwoSum` (exactly one
prior review) at 00:00 of day 7: the code schedules day 21 (count 2 after the
push, multiplier 2, interval 14), not the claimed review day + 7 = day 14. -/
theorem C1_counterexample :
    (match ReviewService.recordReview [probTwoSum] "p1" .MEDIUM
        (some (7 * msPerDay)) none (7 * msPerDay) with
     | .ok (_, p) => p.nextReviewDate
     | .error _ => 0) = 21 * msPerDay ∧
    (21 * msPerDay : Int) ≠ 7 * msPerDay + 7 * msPerDay := by
  constructor <;> decide

/-- C1 amended — the multiplier used by `recordReview` is determined by the
review history length *after* the new review is appended: the recomputed
`nextReviewDate` is the start of the current day plus
`intervalDays (priorCount + 1) d` days.  In particular, a MEDIUM review on a
problem with exactly one prior review uses count 2, multiplier 2, and yields
nextReviewDate = start of the current day + 14 days. -/
theorem C1_postappend_count (store : List Problem) (problemId : String)
    (d : Difficulty) (reviewDate : Option Int) (notes : Option String)
    (now : Int) (p : Problem)
    (hfind : ProblemRepository.findById store problemId = some p) :
    ∃ store' p',
      ReviewService.recordReview store problemId d reviewDate notes now =
        .ok (store', p') ∧
      p'.nextReviewDate =
        startOfDay (addDays now
          (SRSScheduler.intervalDays (p.reviewHistory.length + 1) d)) := by
  unfold ReviewService.recordReview
  rw [hfind]
  refine ⟨_, _, rfl, ?_⟩
  split <;>
    simp [SRSScheduler.scheduleNextReview, List.length_append]

/-- Witness for C1's amended claim on `probTwoSum` at 00:00 of day 7: one
prior review, so count 2 and a 14-day interval landing on day 21. -/
theorem C1_witness :
    (∃ store' p',
      ReviewService.recordReview [probTwoSum] "p1" .MEDIUM
          (some (7 * msPerDay)) none (7 * msPerDay) =
        .ok (store', p') ∧
      p'.nextReviewDate =
        startOfDay (addDays (7 * msPerDay)
          (SRSScheduler.intervalDays 2 .MEDIUM))) ∧
    startOfDay (addDays (7 * msPerDay) (SRSScheduler.intervalDays 2 .MEDIUM)) =
      21 * msPerDay :=
  ⟨C1_postappend_count [probTwoSum] "p1" .MEDIUM (some (7 * msPerDay)) none
      (7 * msPerDay) probTwoSum (by decide),
   by decide⟩

/-- C2 — the claim says an explicitly supplied review date becomes the base
of the recomputed next review date; the code ignores it.  Editing the only
(hence latest) review of `probTwoSum` to day 40 while "now" is day 100, 06:00:
the code schedules from the current day (day 107), not from the supplied
date (day 47 = startOfDay(day 40) + 7).  The service passes `review.date` to
`scheduleNextReview`, whose signature has no such parameter. -/
theorem C2_supplied_date_ignored :
    (match ReviewService.updateReviewRecord [probTwoSum] "p1" 0
        { date := some (40 * msPerDay) } (100 * msPerDay + 21600000) with
     | .ok (_, p) => p.nextReviewDate
     | .error _ => 0) = 107 * msPerDay ∧
    (107 * msPerDay : Int) ≠ startOfDay (40 * msPerDay) + 7 * msPerDay := by
  constructor <;> decide

/-- C7 — editing any in-bounds review record that is not the last by index
(whatever combination of date, difficulty, and note is supplied) leaves the
problem's `nextReviewDate` unchanged. -/
theorem C7_nonlatest_edit_keeps_next (store : List Problem)
    (problemId : String) (reviewIndex : Int) (updates : ReviewUpdates)
    (now : Int) (p : Problem)
    (hfind : ProblemRepository.findById store problemId = some p)
    (h0 : 0 ≤ reviewIndex)
    (hlt : reviewIndex + 1 < (p.reviewHistory.length : Int)) :
    ∃ store' p',
      ReviewService.updateReviewRecord store problemId reviewIndex updates now =
        .ok (store', p') ∧
      p'.nextReviewDate = p.nextReviewDate := by
  simp only [ReviewService.updateReviewRecord, hfind]
  rw [if_neg (by omega)]
  rw [if_neg (fun hc => absurd hc.1 (by omega))]
  exact ⟨_, _, rfl, rfl⟩

/-- Witness for C7: editing the middle record of `probThree` (index 1 of 3),
changing its difficulty, keeps `nextReviewDate` at day 16. -/
theorem C7_witness :
    ∃ store' p',
      ReviewService.updateReviewRecord [probThree] "p4" 1
          { difficulty := some .EASY } fixedNow =
        .ok (store', p') ∧
      p'.nextReviewDate = probThree.nextReviewDate :=
  C7_nonlatest_edit_keeps_next [probThree] "p4" 1 { difficulty := some .EASY }
    fixedNow probThree (by decide) (by decide) (by decide)

/-- The due-today filter condition holds exactly when the due day is on or
before today's day. -/
theorem due_filter_iff (x now : Int) :
    (isBefore (startOfDay x) (startOfDay now) ||
      isSameDay (startOfDay x) (startOfDay now)) = true ↔
      startOfDay x ≤ startOfDay now := by
  simp only [Bool.or_eq_true, isBefore, isSameDay, decide_eq_true_eq,
    startOfDay, msPerDay]
  omega

/-- The upcoming filter condition holds exactly when the due day is strictly
after today's day. -/
theorem upcoming_filter_iff (x now : Int) :
    isAfter (startOfDay x) (startOfDay now) = true ↔
      startOfDay now < startOfDay x := by
  simp [isAfter]

/-- Membership in today's queue, at the problem level: exactly the
non-archived stored problems whose due day is on or before today. -/
theorem mem_todays_iff (store : List Problem) (now : Int) (p : Problem) :
    p ∈ (ReviewQueue.getTodaysReviews store now).map ReviewItem.problem ↔
      p ∈ store ∧ p.archived = false ∧
        startOfDay p.nextReviewDate ≤ startOfDay now := by
  unfold ReviewQueue.getTodaysReviews
  simp only [List.mem_map, List.mem_mergeSort, List.mem_filter,
    ProblemRepository.getAll, if_neg (by decide : ¬ (false = true)),
    ReviewQueue.createReviewItem]
  constructor
  · rintro ⟨item, ⟨q, ⟨⟨⟨hq1, hq2⟩, hqpred⟩, rfl⟩⟩, rfl⟩
    exact ⟨hq1, by simpa using hq2, (due_filter_iff _ _).mp hqpred⟩
  · rintro ⟨hmem, harch, hle⟩
    exact ⟨_, ⟨p, ⟨⟨⟨hmem, by simp [harch]⟩,
      (due_filter_iff _ _).mpr hle⟩, rfl⟩⟩, rfl⟩

/-- Membership in the upcoming queue, at the problem level. -/
theorem mem_upcoming_iff (store : List Problem) (now : Int) (p : Problem) :
    p ∈ (ReviewQueue.getUpcomingReviews store now).map ReviewItem.problem ↔
      p ∈ store ∧ p.archived = false ∧
        startOfDay now < startOfDay p.nextReviewDate := by
  unfold ReviewQueue.getUpcomingReviews
  simp only [List.mem_map, List.mem_mergeSort, List.mem_filter,
    ProblemRepository.getAll, if_neg (by decide : ¬ (false = true)),
    ReviewQueue.createReviewItem]
  constructor
  · rintro ⟨item, ⟨q, ⟨⟨⟨hq1, hq2⟩, hqpred⟩, rfl⟩⟩, rfl⟩
    exact ⟨hq1, by simpa using hq2, (upcoming_filter_iff _ _).mp hqpred⟩
  · rintro ⟨hmem, harch, hlt⟩
    exact ⟨_, ⟨p, ⟨⟨⟨hmem, by simp [harch]⟩,
      (upcoming_filter_iff _ _).mpr hlt⟩, rfl⟩⟩, rfl⟩

/-- C5 — relative to a fixed "now", every non-archived stored problem lands
in exactly one of today's queue and the upcoming queue. -/
theorem C5_queue_partition (store : List Problem) (now : Int) (p : Problem)
    (hmem : p ∈ store) (harch : p.archived = false) :
    (p ∈ (ReviewQueue.getTodaysReviews store now).map ReviewItem.problem ∧
      p ∉ (ReviewQueue.getUpcomingReviews store now).map ReviewItem.problem) ∨
    (p ∉ (ReviewQueue.getTodaysReviews store now).map ReviewItem.problem ∧
      p ∈ (ReviewQueue.getUpcomingReviews store now).map ReviewItem.problem) := by
  rw [mem_todays_iff, mem_upcoming_iff]
  rcases le_or_lt (startOfDay p.nextReviewDate) (startOfDay now) with h | h
  · exact Or.inl ⟨⟨hmem, harch, h⟩, fun hc => absurd hc.2.2 (by omega)⟩
  · exact Or.inr ⟨fun hc => absurd hc.2.2 (by omega), ⟨hmem, harch, h⟩⟩

/-- Witness for C5: the single overdue problem is in today's queue and not in
the upcoming queue. -/
theorem C5_witness :
    (probOverdue ∈
        (ReviewQueue.getTodaysReviews [probOverdue] fixedNow).map ReviewItem.problem ∧
      probOverdue ∉
        (ReviewQueue.getUpcomingReviews [probOverdue] fixedNow).map ReviewItem.problem) ∨
    (probOverdue ∉
        (ReviewQueue.getTodaysReviews [probOverdue] fixedNow).map ReviewItem.problem ∧
      probOverdue ∈
        (ReviewQueue.getUpcomingReviews [probOverdue] fixedNow).map ReviewItem.problem) :=
  C5_queue_partition [probOverdue] fixedNow probOverdue (by decide) (by decide)

/-- Today's queue is sorted ascending by due day (most overdue first). -/
theorem todays_sorted (store : List Problem) (now : Int) :
    (ReviewQueue.getTodaysReviews store now).Pairwise fun a b =>
      startOfDay a.problem.nextReviewDate ≤ startOfDay b.problem.nextReviewDate := by
  unfold ReviewQueue.getTodaysReviews
  have h := @List.sorted_mergeSort ReviewItem ReviewQueue.byDueDate
    (fun a b c hab hbc => by
      simp only [ReviewQueue.byDueDate, decide_eq_true_eq] at *
      omega)
    (fun a b => by
      simp only [ReviewQueue.byDueDate, Bool.or_eq_true, decide_eq_true_eq]
      omega)
    ((ProblemRepository.getAll store).filter (fun p =>
        isBefore (startOfDay p.nextReviewDate) (startOfDay now) ||
          isSameDay (startOfDay p.nextReviewDate) (startOfDay now))
      |>.map (fun p => ReviewQueue.createReviewItem p (startOfDay now)))
  exact h.imp fun hab => by
    simpa only [ReviewQueue.byDueDate, decide_eq_true_eq] using hab

/-- The derived flags of every item in today's queue: `isToday` marks due day
equal to today, `isOverdue` marks due day strictly before today, and
`daysOverdue` is the exact whole-day gap when overdue and 0 otherwise. -/
theorem todays_item_flags (store : List Problem) (now : Int)
    (item : ReviewItem) (hitem : item ∈ ReviewQueue.getTodaysReviews store now) :
    (item.isToday = true ↔
      startOfDay item.problem.nextReviewDate = startOfDay now) ∧
    (item.isOverdue = true ↔
      startOfDay item.problem.nextReviewDate < startOfDay now) ∧
    0 ≤ item.daysOverdue ∧
    (item.isOverdue = true →
      startOfDay item.problem.nextReviewDate + item.daysOverdue * msPerDay =
        startOfDay now) ∧
    (item.isOverdue = false → item.daysOverdue = 0) := by
  unfold ReviewQueue.getTodaysReviews at hitem
  rw [List.mem_mergeSort] at hitem
  obtain ⟨q, hq, rfl⟩ := List.mem_map.mp hitem
  simp only [ReviewQueue.createReviewItem, isBefore, isSameDay,
    decide_eq_true_eq, startOfDay, msPerDay]
  refine ⟨by constructor <;> intro h <;> omega, trivial, ?_, ?_, ?_⟩
  · split <;> rename_i h <;> omega
  · intro h
    rw [if_pos h]
    omega
  · intro h
    rw [if_neg (by simpa using h)]

/-- C6 — `getTodaysReviews` returns exactly the non-archived problems due on
or before today, sorted ascending by due day (most overdue first), and every
returned item carries `isToday` (due day equals today), `isOverdue` (due day
strictly before today), and `daysOverdue` (exact whole-day gap when overdue,
0 otherwise, never negative). -/
theorem C6_todays_reviews_spec (store : List Problem) (now : Int) :
    (∀ p : Problem,
      p ∈ (ReviewQueue.getTodaysReviews store now).map ReviewItem.problem ↔
        p ∈ store ∧ p.archived = false ∧
          startOfDay p.nextReviewDate ≤ startOfDay now) ∧
    ((ReviewQueue.getTodaysReviews store now).Pairwise fun a b =>
      startOfDay a.problem.nextReviewDate ≤ startOfDay b.problem.nextReviewDate) ∧
    (∀ item ∈ ReviewQueue.getTodaysReviews store now,
      (item.isToday = true ↔
        startOfDay item.problem.nextReviewDate = startOfDay now) ∧
      (item.isOverdue = true ↔
        startOfDay item.problem.nextReviewDate < startOfDay now) ∧
      0 ≤ item.daysOverdue ∧
      (item.isOverdue = true →
        startOfDay item.problem.nextReviewDate + item.daysOverdue * msPerDay =
          startOfDay now) ∧
      (item.isOverdue = false → item.daysOverdue = 0)) :=
  ⟨fun p => mem_todays_iff store now p, todays_sorted store now,
   fun item hitem => todays_item_flags store now item hitem⟩

/-- Witness for C6 on a one-problem store: the overdue problem is listed, and
its queue item is flagged overdue with a three-day gap. -/
theorem C6_witness :
    probOverdue ∈
      (ReviewQueue.getTodaysReviews [probOverdue] fixedNow).map ReviewItem.problem ∧
    ∀ item ∈ ReviewQueue.getTodaysReviews [probOverdue] fixedNow,
      item.isOverdue = true →
        startOfDay item.problem.nextReviewDate + item.daysOverdue * msPerDay =
          startOfDay fixedNow := by
  have h := C6_todays_reviews_spec [probOverdue] fixedNow
  exact ⟨(h.1 probOverdue).mpr ⟨by decide, by decide, by decide⟩,
    fun item hitem => (h.2.2 item hitem).2.2.2.1⟩

/-- Serialization to the export document followed by import rehydration is
the identity on a problem: every date field survives the ISO round trip. -/
theorem rehydrate_serialize_problem (p : Problem) :
    ReviewService.rehydrateProblem (serializeProblem p) = p := by
  cases p with
  | mk id name number reviewHistory nextReviewDate createdAt archived =>
    simp only [serializeProblem, ReviewService.rehydrateProblem,
      serializeReview, dateToIso, dateOfIso, List.map_map, Problem.mk.injEq,
      true_and, and_true]
    induction reviewHistory with
    | nil => rfl
    | cons r rest ih =>
      rw [List.map_cons, ih]
      rfl

/-- Serialization followed by rehydration is the identity on a to-do item. -/
theorem rehydrate_serialize_todo (t : TodoItem) :
    ReviewService.rehydrateTodoItem (serializeTodoItem t) = t := by
  cases t with
  | mk id name number note completed createdAt completedAt =>
    simp only [serializeTodoItem, ReviewService.rehydrateTodoItem,
      dateToIso, dateOfIso, Option.map_map]
    cases completedAt <;> simp [dateToIso, dateOfIso]

/-- Upserting a row that is already present leaves a unique-keyed table
unchanged. -/
theorem putById_self {α : Type} (key : α → String) (store : List α) (x : α)
    (hx : x ∈ store) (hnd : (store.map key).Nodup) :
    putById key store x = store := by
  unfold putById
  rw [if_pos (List.any_eq_true.mpr ⟨x, hx, by simp⟩)]
  have : ∀ y ∈ store, (if key y == key x then x else y) = y := by
    intro y hy
    by_cases h : key y = key x
    · rw [if_pos (by simpa using h)]
      exact List.inj_on_of_nodup_map hnd hx hy h.symm
    · rw [if_neg (by simpa using h)]
  calc store.map (fun y => if key y == key x then x else y)
      = store.map (fun y => y) := List.map_congr_left this
    _ = store := List.map_id' store

/-- Bulk-upserting rows already present leaves a unique-keyed table
unchanged. -/
theorem bulkPut_self {α : Type} (key : α → String) (store : List α)
    (xs : List α) (hxs : ∀ x ∈ xs, x ∈ store)
    (hnd : (store.map key).Nodup) :
    bulkPut key store xs = store := by
  induction xs with
  | nil => rfl
  | cons x rest ih =>
    unfold bulkPut at *
    simp only [List.foldl_cons]
    rw [putById_self key store x (hxs x (by simp)) hnd]
    exact ih fun y hy => hxs y (by simp [hy])

/-- C8 — importing the payload produced by `exportData` reproduces the exact
problem and to-do stores (ids, names, histories, flags, and every date field
after ISO serialization and re-parsing), reporting the problem count. -/
theorem C8_export_import_roundtrip (pstore : List Problem)
    (tstore : List TodoItem) (now : Int)
    (hp : (pstore.map Problem.id).Nodup)
    (ht : (tstore.map TodoItem.id).Nodup) :
    ReviewService.importData pstore tstore
        (ReviewService.exportData pstore tstore now) =
      .ok (pstore, tstore, pstore.length) := by
  unfold ReviewService.importData ReviewService.exportData
  rw [if_neg (by simp)]
  have hps : (((ProblemRepository.getAll pstore true).map serializeProblem).map
      ReviewService.rehydrateProblem) = pstore := by
    unfold ProblemRepository.getAll
    simp only [if_pos rfl, List.map_map]
    calc pstore.map (ReviewService.rehydrateProblem ∘ serializeProblem)
        = pstore.map (fun p => p) :=
          List.map_congr_left fun p _ => rehydrate_serialize_problem p
      _ = pstore := List.map_id' pstore
  have hts : (((TodoRepository.getAll tstore).map serializeTodoItem).map
      ReviewService.rehydrateTodoItem) = tstore := by
    unfold TodoRepository.getAll
    simp only [List.map_map]
    calc tstore.map (ReviewService.rehydrateTodoItem ∘ serializeTodoItem)
        = tstore.map (fun t => t) :=
          List.map_congr_left fun t _ => rehydrate_serialize_todo t
      _ = tstore := List.map_id' tstore
  simp only [Option.getD_some, hps, hts]
  rw [ProblemRepository.importMany, bulkPut_self Problem.id pstore pstore
      (fun x hx => hx) hp,
    TodoRepository.importMany, bulkPut_self TodoItem.id tstore tstore
      (fun x hx => hx) ht]

/-- Witness for C8: a two-problem, one-todo store with distinct ids
round-trips exactly. -/
theorem C8_witness :
    ReviewService.importData [probTwoSum, probInterleaved] [todoTwoSum]
        (ReviewService.exportData [probTwoSum, probInterleaved] [todoTwoSum]
          fixedNow) =
      .ok ([probTwoSum, probInterleaved], [todoTwoSum], 2) :=
  C8_export_import_roundtrip [probTwoSum, probInterleaved] [todoTwoSum]
    fixedNow (by decide) (by decide)

/-- The pending-match predicate of `findPendingByName`, in propositional
form: the item is not completed and its lower-cased name equals the
lower-cased query. -/
theorem pendingMatch_iff (t : TodoItem) (name : String) :
    (!t.completed && lowerChars t.name == lowerChars name) = true ↔
      t.completed = false ∧ lowerChars t.name = lowerChars name := by
  simp [Bool.and_eq_true, Bool.not_eq_true']

/-- C9 — `markCompleteByName` matches case-insensitively and exactly against
pending items only: when no pending item matches it returns false and leaves
the store untouched; when one does, it returns true and completes exactly
one item — the first pending match — setting `completed` and `completedAt`
together and leaving every other item unchanged. -/
theorem C9_markCompleteByName (store : List TodoItem) (name : String)
    (now : Int) (hnd : (store.map TodoItem.id).Nodup) :
    ((∀ t ∈ store, ¬(t.completed = false ∧ lowerChars t.name = lowerChars name)) →
      TodoService.markCompleteByName store name now = (store, false)) ∧
    ((∃ t ∈ store, t.completed = false ∧ lowerChars t.name = lowerChars name) →
      (TodoService.markCompleteByName store name now).2 = true ∧
      ∃ l₁ t l₂, store = l₁ ++ t :: l₂ ∧
        t.completed = false ∧ lowerChars t.name = lowerChars name ∧
        (∀ u ∈ l₁, ¬(u.completed = false ∧ lowerChars u.name = lowerChars name)) ∧
        (TodoService.markCompleteByName store name now).1 =
          l₁ ++ ({ t with completed := true, completedAt := some now } : TodoItem) :: l₂) := by
  constructor
  · intro h
    have hnone : TodoRepository.findPendingByName store name = none :=
      List.find?_eq_none.mpr fun t ht hp =>
        h t ht ((pendingMatch_iff t name).mp hp)
    unfold TodoService.markCompleteByName
    rw [hnone]
  · rintro ⟨t0, ht0, hc0⟩
    have hsome : (TodoRepository.findPendingByName store name).isSome := by
      unfold TodoRepository.findPendingByName
      exact List.find?_isSome.mpr ⟨t0, ht0, (pendingMatch_iff t0 name).mpr hc0⟩
    obtain ⟨t, hfind⟩ := Option.isSome_iff_exists.mp hsome
    obtain ⟨hpred, as, bs, hsplit, hfirst⟩ := List.find?_eq_some.mp hfind
    obtain ⟨htc, htn⟩ := (pendingMatch_iff t name).mp hpred
    have hres : TodoService.markCompleteByName store name now =
        (TodoRepository.markComplete store t.id now, true) := by
      unfold TodoService.markCompleteByName
      rw [hfind]
    have hmid : (t.id :: (as.map TodoItem.id ++ bs.map TodoItem.id)).Nodup := by
      rw [hsplit] at hnd
      simpa [List.map_append, List.map_cons, List.nodup_middle] using hnd
    have hnotin : t.id ∉ as.map TodoItem.id ∧ t.id ∉ bs.map TodoItem.id := by
      have h1 := (List.nodup_cons.mp hmid).1
      simp only [List.mem_append] at h1
      exact ⟨fun h => h1 (Or.inl h), fun h => h1 (Or.inr h)⟩
    have hid : ∀ u ∈ as, u.id ≠ t.id := fun u hu hequ =>
      hnotin.1 (hequ ▸ List.mem_map_of_mem TodoItem.id hu)
    have hid2 : ∀ u ∈ bs, u.id ≠ t.id := fun u hu hequ =>
      hnotin.2 (hequ ▸ List.mem_map_of_mem TodoItem.id hu)
    refine ⟨by rw [hres], as, t, bs, hsplit, htc, htn, ?_, ?_⟩
    · intro u hu hc
      have h1 := hfirst u hu
      rw [Bool.not_eq_true'] at h1
      exact absurd ((pendingMatch_iff u name).mpr hc) (by simp [h1])
    · rw [hres]
      show TodoRepository.markComplete store t.id now =
        as ++ ({ t with completed := true, completedAt := some now } : TodoItem) :: bs
      unfold TodoRepository.markComplete
      rw [hsplit, List.map_append, List.map_cons]
      congr 1
      · trans List.map (fun u => u) as
        · exact List.map_congr_left fun u hu => if_neg (by simpa using hid u hu)
        · exact List.map_id' as
      · congr 1
        · rw [if_pos (by simp)]
        · trans List.map (fun u => u) bs
          · exact List.map_congr_left fun u hu => if_neg (by simpa using hid2 u hu)
          · exact List.map_id' bs

/-- Witness for C9: "Two Sum" completes the pending lower-case "two sum"
item (the completed item with a matching name is skipped), and the call
returns true. -/
theorem C9_witness :
    (TodoService.markCompleteByName [todoDone, todoTwoSum] "Two Sum"
      fixedNow).2 = true ∧
    ∃ l₁ t l₂, [todoDone, todoTwoSum] = l₁ ++ t :: l₂ ∧
      t.completed = false ∧ lowerChars t.name = lowerChars "Two Sum" ∧
      (∀ u ∈ l₁,
        ¬(u.completed = false ∧ lowerChars u.name = lowerChars "Two Sum")) ∧
      (TodoService.markCompleteByName [todoDone, todoTwoSum] "Two Sum"
          fixedNow).1 =
        l₁ ++ ({ t with completed := true, completedAt := some fixedNow } :
          TodoItem) :: l₂ :=
  (C9_markCompleteByName [todoDone, todoTwoSum] "Two Sum" fixedNow
      (by decide)).2
    ⟨todoTwoSum, by decide, by decide, by decide⟩
